import Mathlib

/-!
Verification development for the `gren` repository (packages `furu` and
`huldra`): a content-addressed, filesystem-backed cache for pipeline steps.

This file shallowly embeds the parts of the source needed to settle the
frozen claims:

* `src/furu/config.py` — `FuruConfig.__init__`, `_parse_cache_duration`,
  `get_root`;
* `src/furu/errors.py` — `FuruComputeError.__str__`,
  `FuruMigrationRequired.__str__`;
* `src/huldra/dashboard/scanner.py` — `_iter_roots`,
  `_parse_namespace_from_path`, `_get_class_name`, `_state_to_summary`,
  `_find_experiment_dirs`, `scan_experiments`, and the path reconstruction
  of `get_experiment_detail`.

Modelling conventions: Python strings are Lean `String`/`List Char`
(character classes `\d`, `\s` and `str.lower()`/`str.strip()` are modelled
on their ASCII behaviour, which covers every character class the source's
regular expression and the configuration values use); Python floats are
`ℚ` with `float("inf")` represented by `⊤ : WithTop ℚ`; `None` is `none`;
raising an exception is `Except`/`Option`; filesystem paths are lists of
path components (`Path := List String`).
-/

/-- A filesystem path, as its list of components relative to the
filesystem root (`pathlib.Path` in the source). -/
abbrev FilePathModel : Type := List String

/-- An environment (`os.getenv`): maps a variable name to its value when
set. -/
abbrev EnvMap : Type := String → Option String

/-- ASCII decimal digit test: models the regex class `\d` and Python's
digit checks on the ASCII range. -/
def isDigitCh (c : Char) : Bool := 48 ≤ c.toNat && c.toNat ≤ 57

/-- ASCII whitespace test: models the regex class `\s` and the character
set removed by `str.strip()` (space, tab, newline, carriage return,
vertical tab, form feed). -/
def isPySpace (c : Char) : Bool :=
  c.toNat == 32 || c.toNat == 9 || c.toNat == 10 || c.toNat == 13 ||
  c.toNat == 11 || c.toNat == 12

/-- ASCII lowercasing of one character: models `str.lower()` on ASCII. -/
def pyLowerChar (c : Char) : Char :=
  if 65 ≤ c.toNat ∧ c.toNat ≤ 90 then Char.ofNat (c.toNat + 32) else c

/-- Models `str.lower()`. -/
def pyLower (s : String) : String := ⟨s.data.map pyLowerChar⟩

/-- Drops leading and trailing whitespace from a character list. -/
def pyStripList (cs : List Char) : List Char :=
  ((cs.dropWhile isPySpace).reverse.dropWhile isPySpace).reverse

/-- Models `str.strip()` (no argument form). -/
def pyStrip (s : String) : String := ⟨pyStripList s.data⟩

/-- Splitting a character list at a separator character, with Python's
`str.split(sep)` semantics: splitting the empty string gives one empty
part, and consecutive separators give empty parts. -/
def splitOnChar (sep : Char) : List Char → List (List Char)
  | [] => [[]]
  | c :: rest =>
    if c = sep then [] :: splitOnChar sep rest
    else
      match splitOnChar sep rest with
      | [] => [[c]]
      | h :: t => (c :: h) :: t

/-- Models Python `s.split(sep)` for a one-character separator. -/
def pySplit (sep : Char) (s : String) : List String :=
  (splitOnChar sep s.data).map String.mk

/-- Joining character lists with a separator character interleaved. -/
def joinChar (sep : Char) : List (List Char) → List Char
  | [] => []
  | [p] => p
  | p :: q :: rest => p ++ sep :: joinChar sep (q :: rest)

/-- Models Python `sep.join(parts)` for a one-character separator. -/
def pyJoin (sep : Char) (parts : List String) : String :=
  ⟨joinChar sep (parts.map String.data)⟩

/-- Numeric value of a digit string (most significant first), as in
Python's number parsing. -/
def digitsVal (cs : List Char) : ℕ :=
  cs.foldl (fun acc c => 10 * acc + (c.toNat - 48)) 0

/-- Value of a decimal literal with integer part `ip` and fractional part
`fp` (possibly empty), as parsed by Python's `float()`. -/
def decNumber (ip fp : List Char) : ℚ :=
  (digitsVal ip : ℚ) + (digitsVal fp : ℚ) / (10 : ℚ) ^ fp.length

/-- The character list of the decimal literal with integer part `ip` and
(optional) fractional part `fp`: `ip` or `ip ++ "." ++ fp`. -/
def numStr (ip fp : List Char) : List Char :=
  ip ++ (if fp = [] then [] else '.' :: fp)

/-- Models the tail of the regex `^(\d+(?:\.\d+)?)\s*([smh]?)$` after the
number has been consumed: optional whitespace, then an optional single
unit character, then end of input.  Returns the number paired with the
unit (defaulted to `'s'` as in `match.group(2) or "s"`). -/
def matchTail (num : ℚ) (rest : List Char) : Option (ℚ × Char) :=
  match rest.dropWhile isPySpace with
  | [] => some (num, 's')
  | [u] => if u = 's' ∨ u = 'm' ∨ u = 'h' then some (num, u) else none
  | _ => none

/-- Models `re.match(r"^(\d+(?:\.\d+)?)\s*([smh]?)$", value)`: on success,
returns the parsed number together with the unit character (defaulted to
`'s'` when the unit group is empty). -/
def matchDuration (cs : List Char) : Option (ℚ × Char) :=
  let ip := cs.takeWhile isDigitCh
  let r1 := cs.dropWhile isDigitCh
  if ip = [] then none
  else if r1.head? = some '.' then
    let fp := r1.tail.takeWhile isDigitCh
    let r3 := r1.tail.dropWhile isDigitCh
    if fp = [] then none else matchTail (decNumber ip fp) r3
  else matchTail (decNumber ip []) r1

/-- The `multipliers` dictionary `{"s": 1, "m": 60, "h": 3600}` of
`_parse_cache_duration`, looked up at a unit character. -/
def unitMult (c : Char) : ℚ :=
  if c = 's' then 1 else if c = 'm' then 60 else 3600

/-- Body of `FuruConfig._parse_cache_duration` after the reassignment
`value = value.strip().lower()`: the two alias-set checks followed by the
regex match. -/
def parse_cache_duration_body (v : String) : Except Unit (Option (WithTop ℚ)) :=
  if v = "never" ∨ v = "0" ∨ v = "false" ∨ v = "no" then .ok none
  else if v = "forever" ∨ v = "inf" ∨ v = "true" ∨ v = "yes" ∨ v = "1" then
    .ok (some ⊤)
  else
    match matchDuration v.data with
    | some x => .ok (some ((x.1 * unitMult x.2 : ℚ) : WithTop ℚ))
    | none => .error ()

/-- Embedding of `FuruConfig._parse_cache_duration` (src/furu/config.py
lines 55-77).  `.ok none` is Python's `None` (no caching), `.ok (some ⊤)`
is `float("inf")` (cache forever), `.ok (some q)` a finite TTL of `q`
seconds, and `.error ()` models `raise ValueError(...)`. -/
def parse_cache_duration (value : String) : Except Unit (Option (WithTop ℚ)) :=
  parse_cache_duration_body (pyLower (pyStrip value))

instance : DecidableEq (Except Unit (Option (WithTop ℚ))) := fun a b =>
  match a, b with
  | .ok x, .ok y => decidable_of_iff (x = y) (by simp)
  | .error x, .error y => decidable_of_iff (x = y) (by simp)
  | .ok _, .error _ => .isFalse (by simp)
  | .error _, .ok _ => .isFalse (by simp)

/-- Models Python `float()` applied to a plain decimal literal (optional
sign, digits, optional fractional part), the only forms the configuration
code relies on; other inputs are rejected (`none` models `ValueError`). -/
def pyFloat (s : String) : Option ℚ :=
  let core : List Char → Option ℚ := fun cs =>
    let ip := cs.takeWhile isDigitCh
    let r1 := cs.dropWhile isDigitCh
    match r1 with
    | [] => if ip = [] then none else some (digitsVal ip : ℚ)
    | '.' :: r2 =>
      let fp := r2.takeWhile isDigitCh
      let r3 := r2.dropWhile isDigitCh
      if r3 = [] then
        if ip = [] ∧ fp = [] then none else some (decNumber ip fp)
      else none
    | _ => none
  match (pyStrip s).data with
  | '-' :: rest => (core rest).map Neg.neg
  | '+' :: rest => core rest
  | cs => core cs

/-- Models Python `int()` applied to a decimal literal with optional
sign. -/
def pyInt (s : String) : Option ℤ :=
  let core : List Char → Option ℤ := fun cs =>
    if cs ≠ [] ∧ cs.all isDigitCh then some (digitsVal cs : ℤ) else none
  match (pyStrip s).data with
  | '-' :: rest => (core rest).map Neg.neg
  | '+' :: rest => core rest
  | cs => core cs

/-- Models `os.getenv(key, default)`. -/
def getenvD (env : EnvMap) (key default : String) : String :=
  (env key).getD default

/-- Models `os.getenv(key, default).lower() in {"1", "true", "yes"}`, the
boolean-environment idiom of `FuruConfig.__init__`. -/
def envFlag (env : EnvMap) (key default : String) : Bool :=
  let v := pyLower (getenvD env key default)
  v == "1" || v == "true" || v == "yes"

/-- The configuration record built by `FuruConfig.__init__`
(src/furu/config.py lines 8-53).  `base_root` is the resolved
`FURU_PATH` directory (kept abstract: `Path.resolve()` depends on the
process working directory). -/
structure FuruConfig where
  base_root : FilePathModel
  poll_interval : ℚ
  wait_log_every_sec : ℚ
  stale_timeout : ℚ
  lease_duration_sec : ℚ
  heartbeat_interval_sec : ℚ
  max_requeues : ℤ
  ignore_git_diff : Bool
  require_git : Bool
  require_git_remote : Bool
  force_recompute : List String
  cancelled_is_preempted : Bool
  cache_metadata_ttl_sec : Option (WithTop ℚ)
deriving DecidableEq

/-- Embedding of `FuruConfig.__init__` as a function of the environment
and of the already-resolved base root.  `none` models a constructor that
raises (a numeric environment value `float()`/`int()` rejects, or a
`FURU_CACHE_METADATA` value `_parse_cache_duration` rejects). -/
def FuruConfig.ofEnv (env : EnvMap) (base_root : FilePathModel) :
    Option FuruConfig := do
  let poll ← pyFloat (getenvD env "FURU_POLL_INTERVAL_SECS" "10")
  let waitLog ← pyFloat (getenvD env "FURU_WAIT_LOG_EVERY_SECS" "10")
  let stale ← pyFloat (getenvD env "FURU_STALE_AFTER_SECS" "1800")
  let lease ← pyFloat (getenvD env "FURU_LEASE_SECS" "120")
  let hb ← match env "FURU_HEARTBEAT_SECS" with
    | some s => pyFloat s
    | none => some (max 1 (lease / 3))
  let requeues ← pyInt (getenvD env "FURU_PREEMPT_MAX" "5")
  let ttl ← (parse_cache_duration (getenvD env "FURU_CACHE_METADATA" "5m")).toOption
  some
    { base_root := base_root
      poll_interval := poll
      wait_log_every_sec := waitLog
      stale_timeout := stale
      lease_duration_sec := lease
      heartbeat_interval_sec := hb
      max_requeues := requeues
      ignore_git_diff := envFlag env "FURU_IGNORE_DIFF" "0"
      require_git := envFlag env "FURU_REQUIRE_GIT" "1"
      require_git_remote := envFlag env "FURU_REQUIRE_GIT_REMOTE" "1"
      force_recompute :=
        ((pySplit ',' (getenvD env "FURU_FORCE_RECOMPUTE" "")).map pyStrip).filter
          (fun item => item ≠ "")
      cancelled_is_preempted := envFlag env "FURU_CANCELLED_IS_PREEMPTED" "false"
      cache_metadata_ttl_sec := ttl }

/-- Embedding of `FuruConfig.get_root` (src/furu/config.py lines 79-83):
the storage root is the `git` subdirectory of the base root for
version-controlled artifacts and the `data` subdirectory otherwise. -/
def FuruConfig.get_root (c : FuruConfig) (version_controlled : Bool) :
    FilePathModel :=
  if version_controlled then c.base_root ++ ["git"] else c.base_root ++ ["data"]

/-- The information the embedding keeps about a Python exception object:
its `str()` rendering and the string produced by joining
`traceback.format_exception(type(e), e, e.__traceback__)`. -/
structure PyExc where
  rendered : String
  tb : String

/-- The `FuruComputeError` data: constructor arguments of
src/furu/errors.py lines 38-46 (the message passed to `Exception`, the
state-file path, and the optional original exception). -/
structure FuruComputeError where
  message : String
  state_path : String
  original_error : Option PyExc

/-- Embedding of `FuruComputeError.__str__` (src/furu/errors.py lines
48-62).  `hasattr(e, "__traceback__")` is true of every Python exception,
so the traceback block is always appended when an original error is
present. -/
def FuruComputeError.render (e : FuruComputeError) : String :=
  let msg := e.message
  let msg :=
    match e.original_error with
    | some exc =>
      msg ++ "\n\nOriginal error: " ++ exc.rendered ++ "\n\nTraceback:\n" ++ exc.tb
    | none => msg
  msg ++ "\n\nState file: " ++ e.state_path

/-- The `FuruMigrationRequired` data (src/furu/errors.py lines 65-70):
the message and the keyword-only optional state path. -/
structure FuruMigrationRequired where
  message : String
  state_path : Option String

/-- Embedding of `FuruMigrationRequired.__str__` (src/furu/errors.py
lines 72-76). -/
def FuruMigrationRequired.render (e : FuruMigrationRequired) : String :=
  match e.state_path with
  | some p => e.message ++ "\n\nState file: " ++ p
  | none => e.message

/-- The language of the duration pattern, stated declaratively: one or
more digits, an optional dot-and-digits fractional part, optional
whitespace, and an optional unit character `s`, `m` or `h`. -/
def durationForm (cs : List Char) : Prop :=
  ∃ ip fp ws uo, ip ≠ [] ∧ (∀ c ∈ ip, isDigitCh c = true) ∧
    (∀ c ∈ fp, isDigitCh c = true) ∧ (∀ c ∈ ws, isPySpace c = true) ∧
    (uo = none ∨ uo = some 's' ∨ uo = some 'm' ∨ uo = some 'h') ∧
    cs = numStr ip fp ++ ws ++ uo.toList

/-- Acceptance predicate of claim C4 as stated: after trimming and
lowercasing, the input is `"never"`, `"forever"`, or a decimal number
with an optional single unit suffix `s`, `m` or `h`. -/
def claimAcceptedOrig (value : String) : Prop :=
  pyLower (pyStrip value) = "never" ∨ pyLower (pyStrip value) = "forever" ∨
    (∃ ip fp uo, ip ≠ [] ∧ (∀ c ∈ ip, isDigitCh c = true) ∧
      (∀ c ∈ fp, isDigitCh c = true) ∧
      (uo = none ∨ uo = some 's' ∨ uo = some 'm' ∨ uo = some 'h') ∧
      (pyLower (pyStrip value)).data = numStr ip fp ++ uo.toList)

/-- Acceptance predicate of the amended claim C4: after trimming and
lowercasing, the input is in one of the two alias sets, or matches the
duration pattern — a number (digits with an optional fractional part)
followed by optional whitespace and an optional unit `s`, `m` or `h`. -/
def cacheAccepted (value : String) : Prop :=
  (pyLower (pyStrip value) = "never" ∨ pyLower (pyStrip value) = "0" ∨
    pyLower (pyStrip value) = "false" ∨ pyLower (pyStrip value) = "no") ∨
  (pyLower (pyStrip value) = "forever" ∨ pyLower (pyStrip value) = "inf" ∨
    pyLower (pyStrip value) = "true" ∨ pyLower (pyStrip value) = "yes" ∨
    pyLower (pyStrip value) = "1") ∨
  durationForm (pyLower (pyStrip value)).data

/-- One filesystem entry: an existing path together with whether it is a
directory (`is_dir`) or a regular file. -/
structure FSEntry where
  path : FilePathModel
  isDir : Bool
deriving DecidableEq

/-- The `attempt` block of the state record (spec section 3): the fields
the dashboard summary reads. -/
structure AttemptRec where
  status : String
  number : ℤ
  started_at : String
deriving DecidableEq

/-- The state record (`state.json`, spec section 3) restricted to the
fields `_state_to_summary` reads: `result.status`, the optional attempt,
and `updated_at`. -/
structure StateRecord where
  result_status : String
  attempt : Option AttemptRec
  updated_at : Option String
deriving DecidableEq

/-- A snapshot of the filesystem as the dashboard scanner sees it: the
entries that exist, and the state record obtained by reading a step
directory.  `stateOf` is modelled from the spec: `StateStore.read(dir)`
(`StateManager.read_state` in the scanner, whose class is not among the
provided sources) returns the state record parsed from the directory's
state file. -/
structure FSModel where
  entries : List FSEntry
  stateOf : FilePathModel → StateRecord

/-- Models `path.is_dir()`. -/
def FSModel.isDir (fs : FSModel) (p : FilePathModel) : Bool :=
  fs.entries.any (fun e => e.path == p && e.isDir)

/-- Models `path.is_file()`. -/
def FSModel.isFile (fs : FSModel) (p : FilePathModel) : Bool :=
  fs.entries.any (fun e => e.path == p && !e.isDir)

/-- Models `path.exists()`. -/
def FSModel.pathExists (fs : FSModel) (p : FilePathModel) : Bool :=
  fs.entries.any (fun e => e.path == p)

/-- A real filesystem never lists the same path twice. -/
def FSModel.Wellformed (fs : FSModel) : Prop :=
  (fs.entries.map FSEntry.path).Nodup

/-- Modelled from the spec: `StateManager.INTERNAL_DIR`, the name of the
internal state subdirectory of a step directory (spec section 3 lists the
`.state/` layout); the `StateManager` class is not among the provided
sources. -/
def StateManager.INTERNAL_DIR : String := ".state"

/-- Modelled from the spec: `StateManager.STATE_FILE`, the name of the
authoritative state record file inside the internal subdirectory. -/
def StateManager.STATE_FILE : String := "state.json"

/-- Models `root.rglob(pattern)` for a pattern that is a plain name: the
entries strictly below `root` whose final path component equals the
pattern, in filesystem enumeration order. -/
def rglobName (fs : FSModel) (root : FilePathModel) (pat : String) :
    List FilePathModel :=
  (fs.entries.filter (fun e =>
    root.isPrefixOf e.path && decide (root.length < e.path.length) &&
    e.path.getLastD "" == pat)).map FSEntry.path

/-- Embedding of `_find_experiment_dirs` (scanner.py lines 92-103): walk
the tree for entries named `INTERNAL_DIR` that are directories and contain
the state file, and collect their parents. -/
def find_experiment_dirs (fs : FSModel) (root : FilePathModel) :
    List FilePathModel :=
  ((rglobName fs root StateManager.INTERNAL_DIR).filter (fun d =>
    fs.isDir d && fs.isFile (d ++ [StateManager.STATE_FILE]))).map List.dropLast

/-- Embedding of `_iter_roots` (scanner.py lines 19-24): the data root and
the git root, kept when they exist.  `HULDRA_CONFIG.get_root` is modelled
from the spec (section 6: `data/` and `git/` under one base root) by the
identical `FuruConfig.get_root`. -/
def iter_roots (fs : FSModel) (cfg : FuruConfig) : List FilePathModel :=
  ([false, true].map cfg.get_root).filter fs.pathExists

/-- Models `Path.relative_to`: strips `root` from the front of `p`, or
fails (Python raises `ValueError`) when `p` is not below `root`. -/
def relative_to (p root : FilePathModel) : Option FilePathModel :=
  if root.isPrefixOf p then some (p.drop root.length) else none

/-- Models `str(path)` for a relative path: components joined by `/`. -/
def pathStr (p : FilePathModel) : String := pyJoin '/' p

/-- Embedding of `_parse_namespace_from_path` (scanner.py lines 27-39):
the relative path's last component is the hash and the other components,
joined by dots, the namespace; fewer than two components degrade to
`(str(relative), "")`. -/
def parse_namespace_from_path (experiment_dir root : FilePathModel) :
    Option (String × String) :=
  (relative_to experiment_dir root).map (fun parts =>
    if parts.length < 2 then (pathStr parts, "")
    else (pyJoin '.' parts.dropLast, parts.getLastD ""))

/-- Embedding of `_get_class_name` (scanner.py lines 42-45). -/
def get_class_name (ns : String) : String :=
  match pySplit '.' ns with
  | [] => ns
  | parts => parts.getLastD ns

/-- The dashboard's `ExperimentSummary` model restricted to the fields the
scanner writes (`namespace` is `ns`: `namespace` is reserved in Lean). -/
structure ExperimentSummary where
  ns : String
  huldra_hash : String
  class_name : String
  result_status : String
  attempt_status : Option String
  attempt_number : Option ℤ
  updated_at : Option String
  started_at : Option String
deriving DecidableEq

/-- Embedding of `_state_to_summary` (scanner.py lines 48-62). -/
def state_to_summary (state : StateRecord) (ns huldra_hash : String) :
    ExperimentSummary :=
  { ns := ns
    huldra_hash := huldra_hash
    class_name := get_class_name ns
    result_status := state.result_status
    attempt_status := state.attempt.map AttemptRec.status
    attempt_number := state.attempt.map AttemptRec.number
    updated_at := state.updated_at
    started_at := state.attempt.map AttemptRec.started_at }

/-- The sort key of scanner.py line 144:
`(e.updated_at is None, e.updated_at or "")`. -/
def summarySortKey (e : ExperimentSummary) : Bool × String :=
  (e.updated_at.isNone, e.updated_at.getD "")

/-- Lexicographic order on sort keys, with `False < True` and Python's
string order (code-point lexicographic). -/
def sortKeyLe (a b : Bool × String) : Bool :=
  if a.1 = b.1 then decide (a.2 ≤ b.2) else !a.1

/-- The sort of scanner.py lines 143-146: `list.sort` with `reverse=True`
is a stable descending sort by the key, modelled by a stable insertion
sort with the reversed comparison. -/
def scan_sort (l : List ExperimentSummary) : List ExperimentSummary :=
  List.insertionSort
    (fun a b => sortKeyLe (summarySortKey b) (summarySortKey a) = true) l

/-- Python truthiness of an optional string: `None` and `""` are falsy. -/
def pyTruthy (s : Option String) : Bool :=
  match s with
  | none => false
  | some v => v ≠ ""

/-- The filter block of `scan_experiments` (scanner.py lines 132-138):
`continue` on a filter mismatch is dropping the summary.  Each guard uses
Python truthiness: a `None` or empty filter is inactive. -/
def scan_filters (resultStatus attemptStatus namespacePrefix : Option String)
    (summary : ExperimentSummary) : Option ExperimentSummary :=
  if pyTruthy resultStatus &&
      summary.result_status != resultStatus.getD "" then none
  else if pyTruthy attemptStatus &&
      summary.attempt_status != some (attemptStatus.getD "") then none
  else if pyTruthy namespacePrefix &&
      !(namespacePrefix.getD "").isPrefixOf summary.ns then none
  else some summary

/-- Embedding of `scan_experiments` (scanner.py lines 106-148).  For each
existing root and each discovered experiment directory, read the state,
parse namespace and hash, build a summary, apply the filters, and sort.
`relative_to` cannot fail here (every discovered directory lies below its
root), so the `Option.bind` never drops an entry. -/
def scan_experiments (fs : FSModel) (cfg : FuruConfig)
    (resultStatus attemptStatus namespacePrefix : Option String) :
    List ExperimentSummary :=
  scan_sort ((iter_roots fs cfg).flatMap (fun root =>
    (find_experiment_dirs fs root).filterMap (fun experiment_dir =>
      (parse_namespace_from_path experiment_dir root).bind (fun nh =>
        scan_filters resultStatus attemptStatus namespacePrefix
          (state_to_summary (fs.stateOf experiment_dir) nh.1 nh.2)))))

/-- The step-directory reconstruction of `get_experiment_detail`
(scanner.py lines 163-166): `root / Path(*namespace.split(".")) /
huldra_hash`. -/
def detail_experiment_dir (root : FilePathModel) (ns huldra_hash : String) :
    FilePathModel :=
  root ++ pySplit '.' ns ++ [huldra_hash]

/-- Claim-side characterization (C1): `d` is an experiment directory
under `root` when it lies below the root and contains the internal state
subdirectory with its state file. -/
def isExperimentDirUnder (fs : FSModel) (root d : FilePathModel) : Bool :=
  root.isPrefixOf d && fs.isDir (d ++ [StateManager.INTERNAL_DIR]) &&
    fs.isFile (d ++ [StateManager.INTERNAL_DIR, StateManager.STATE_FILE])

/-- Claim-side enumeration (C1) of the experiment directories under a
root: the parents of filesystem entries, deduplicated, that satisfy
`isExperimentDirUnder`. -/
def experimentDirsSpec (fs : FSModel) (root : FilePathModel) :
    List FilePathModel :=
  ((fs.entries.map (fun e => e.path.dropLast)).dedup).filter
    (isExperimentDirUnder fs root)

/-- The five summary fields claim C1 says are taken from the state
record. -/
def summaryStateFields (s : ExperimentSummary) :
    String × Option String × Option ℤ × Option String × Option String :=
  (s.result_status, s.attempt_status, s.attempt_number, s.updated_at,
    s.started_at)

/-- The same five fields read off a state record directly. -/
def stateFields (st : StateRecord) :
    String × Option String × Option ℤ × Option String × Option String :=
  (st.result_status, st.attempt.map AttemptRec.status,
    st.attempt.map AttemptRec.number, st.updated_at,
    st.attempt.map AttemptRec.started_at)

/-- A concrete configuration for the concrete scanner evaluations: base
root at the filesystem root, the other fields at their defaults. -/
def cfgConcrete : FuruConfig :=
  { base_root := [], poll_interval := 10, wait_log_every_sec := 10,
    stale_timeout := 1800, lease_duration_sec := 120,
    heartbeat_interval_sec := 40, max_requeues := 5,
    ignore_git_diff := false, require_git := true, require_git_remote := true,
    force_recompute := [], cancelled_is_preempted := false,
    cache_metadata_ttl_sec := none }

/-- A concrete filesystem with two experiment directories under the data
root: `expB` (listed first) with a dated `updated_at` and `expA` with
`updated_at = None`. -/
def fsSortConcrete : FSModel :=
  { entries :=
      [⟨["data"], true⟩,
       ⟨["data", "pipelines", "expB", ".state"], true⟩,
       ⟨["data", "pipelines", "expB", ".state", "state.json"], false⟩,
       ⟨["data", "pipelines", "expA", ".state"], true⟩,
       ⟨["data", "pipelines", "expA", ".state", "state.json"], false⟩],
    stateOf := fun d =>
      if d = ["data", "pipelines", "expA"] then
        { result_status := "incomplete", attempt := none, updated_at := none }
      else
        { result_status := "success", attempt := none,
          updated_at := some "2024-01-01T00:00:00+00:00" } }

/-- A `takeWhile` over an append whose left part wholly satisfies the
predicate and whose right part starts with a failing element (or is
empty) takes exactly the left part. -/
lemma takeWhile_append_all {α : Type} (p : α → Bool) (l r : List α)
    (hl : ∀ a ∈ l, p a = true) (hr : ∀ c, r.head? = some c → p c = false) :
    (l ++ r).takeWhile p = l := by
  induction l with
  | nil =>
    simp only [List.nil_append]
    cases r with
    | nil => rfl
    | cons c t => simp [List.takeWhile_cons, hr c rfl]
  | cons a l ih =>
    have ha : p a = true := hl a (by simp)
    simp [List.takeWhile_cons, ha, ih (fun b hb => hl b (by simp [hb]))]

/-- Companion to `takeWhile_append_all` for `dropWhile`. -/
lemma dropWhile_append_all {α : Type} (p : α → Bool) (l r : List α)
    (hl : ∀ a ∈ l, p a = true) (hr : ∀ c, r.head? = some c → p c = false) :
    (l ++ r).dropWhile p = r := by
  induction l with
  | nil =>
    simp only [List.nil_append]
    cases r with
    | nil => rfl
    | cons c t => simp [List.dropWhile_cons, hr c rfl]
  | cons a l ih =>
    have ha : p a = true := hl a (by simp)
    simp only [List.cons_append, List.dropWhile_cons, ha]
    exact ih (fun b hb => hl b (by simp [hb]))

/-- A `dropWhile` over an append whose left part wholly satisfies the
predicate continues on the right part. -/
lemma dropWhile_append_sat {α : Type} (p : α → Bool) (l r : List α)
    (hl : ∀ a ∈ l, p a = true) : (l ++ r).dropWhile p = r.dropWhile p := by
  induction l with
  | nil => simp
  | cons a l ih =>
    have ha : p a = true := hl a (by simp)
    simp only [List.cons_append, List.dropWhile_cons, ha]
    exact ih (fun b hb => hl b (by simp [hb]))

lemma isDigitCh_bounds {c : Char} (h : isDigitCh c = true) :
    48 ≤ c.toNat ∧ c.toNat ≤ 57 := by
  simpa [isDigitCh] using h

lemma isPySpace_cases {c : Char} (h : isPySpace c = true) :
    c.toNat = 32 ∨ c.toNat = 9 ∨ c.toNat = 10 ∨ c.toNat = 13 ∨
    c.toNat = 11 ∨ c.toNat = 12 := by
  simpa [isPySpace, or_assoc] using h

lemma digit_not_space {c : Char} (h : isDigitCh c = true) : isPySpace c = false := by
  have := isDigitCh_bounds h
  simp only [isPySpace, Bool.or_eq_false_iff, beq_eq_false_iff_ne]
  omega

lemma space_not_digit {c : Char} (h : isPySpace c = true) : isDigitCh c = false := by
  have := isPySpace_cases h
  simp only [isDigitCh, Bool.and_eq_false_iff, decide_eq_false_iff_not, not_le]
  omega

lemma space_ne_dot {c : Char} (h : isPySpace c = true) : c ≠ '.' := by
  intro hc
  subst hc
  simp [isPySpace] at h

lemma digit_ne_dot {c : Char} (h : isDigitCh c = true) : c ≠ '.' := by
  intro hc
  subst hc
  simp [isDigitCh] at h

lemma digit_lower_self {c : Char} (h : isDigitCh c = true) : pyLowerChar c = c := by
  obtain ⟨h1, h2⟩ := isDigitCh_bounds h
  rw [pyLowerChar, if_neg (by omega)]

/-- Dropping whitespace from a list that contains no whitespace is the
identity. -/
lemma dropWhile_space_eq_self (cs : List Char)
    (h : ∀ c ∈ cs, isPySpace c = false) : cs.dropWhile isPySpace = cs := by
  cases cs with
  | nil => rfl
  | cons c t => simp [List.dropWhile_cons, h c (by simp)]

/-- Stripping a string whose characters are never whitespace is the
identity. -/
lemma pyStripList_eq_self (cs : List Char)
    (h : ∀ c ∈ cs, isPySpace c = false) : pyStripList cs = cs := by
  rw [pyStripList, dropWhile_space_eq_self cs h,
    dropWhile_space_eq_self cs.reverse (fun c hc => h c (List.mem_reverse.mp hc)),
    List.reverse_reverse]

/-- Lowercasing a string none of whose characters change under
lowercasing is the identity. -/
lemma pyLower_mk_eq_self (cs : List Char)
    (h : ∀ c ∈ cs, pyLowerChar c = c) : pyLower ⟨cs⟩ = ⟨cs⟩ := by
  simp only [pyLower]
  exact congrArg String.mk (List.map_congr_left h ▸ List.map_id cs)

lemma unit_char_facts {u : Char} (hu : u = 's' ∨ u = 'm' ∨ u = 'h') :
    isDigitCh u = false ∧ isPySpace u = false ∧ u ≠ '.' := by
  rcases hu with h | h | h <;> subst h <;> exact ⟨by decide, by decide, by decide⟩

/-- Head of a whitespace-then-optional-unit suffix: never a digit and
never a dot. -/
lemma wsUnit_head_facts (ws : List Char) (uo : Option Char)
    (hws : ∀ c ∈ ws, isPySpace c = true)
    (hu : uo = none ∨ uo = some 's' ∨ uo = some 'm' ∨ uo = some 'h') :
    (∀ c, (ws ++ uo.toList).head? = some c → isDigitCh c = false) ∧
    ¬ ((ws ++ uo.toList).head? = some '.') := by
  cases ws with
  | cons w t =>
    have hw := hws w (by simp)
    constructor
    · intro c hc
      simp only [List.cons_append, List.head?_cons, Option.some.injEq] at hc
      exact hc ▸ space_not_digit hw
    · intro hc
      simp only [List.cons_append, List.head?_cons, Option.some.injEq] at hc
      exact space_ne_dot hw hc
  | nil =>
    rcases hu with h | h | h | h <;> subst h <;>
      refine ⟨fun c hc => ?_, fun hc => ?_⟩ <;>
      simp only [List.nil_append, Option.toList, List.head?_nil, List.head?_cons,
        Option.some.injEq, reduceCtorEq] at hc
    all_goals
      first
      | exact hc ▸ (by decide)
      | exact absurd hc (by decide)

/-- `matchTail` accepts exactly a whitespace run followed by an optional
unit character, and defaults the unit to `'s'`. -/
lemma matchTail_build (num : ℚ) (ws : List Char) (uo : Option Char)
    (hws : ∀ c ∈ ws, isPySpace c = true)
    (hu : uo = none ∨ uo = some 's' ∨ uo = some 'm' ∨ uo = some 'h') :
    matchTail num (ws ++ uo.toList) = some (num, uo.getD 's') := by
  have hdrop : (ws ++ uo.toList).dropWhile isPySpace = uo.toList.dropWhile isPySpace :=
    dropWhile_append_sat isPySpace ws uo.toList hws
  rcases hu with h | h | h | h <;> subst h <;>
    rw [matchTail, hdrop] <;>
    simp [List.dropWhile_cons, show isPySpace 's' = false from by decide,
      show isPySpace 'm' = false from by decide,
      show isPySpace 'h' = false from by decide]

/-- Inversion for `matchTail`: a successful match decomposes the input
into whitespace and an optional unit, and returns the given number. -/
lemma matchTail_sound (num q : ℚ) (u : Char) (r : List Char)
    (h : matchTail num r = some (q, u)) :
    q = num ∧ ∃ ws uo, (∀ c ∈ ws, isPySpace c = true) ∧
      (uo = none ∨ uo = some 's' ∨ uo = some 'm' ∨ uo = some 'h') ∧
      r = ws ++ uo.toList ∧ u = uo.getD 's' := by
  have hsplit : r.takeWhile isPySpace ++ r.dropWhile isPySpace = r :=
    List.takeWhile_append_dropWhile isPySpace r
  have hws : ∀ c ∈ r.takeWhile isPySpace, isPySpace c = true :=
    fun c hc => List.mem_takeWhile_imp hc
  rw [matchTail] at h
  rcases hd : r.dropWhile isPySpace with _ | ⟨u', t⟩
  · rw [hd] at h
    simp only [Option.some.injEq, Prod.mk.injEq] at h
    refine ⟨h.1.symm, r.takeWhile isPySpace, none, hws, Or.inl rfl, ?_, h.2.symm⟩
    show r = List.takeWhile isPySpace r ++ []
    conv_lhs => rw [← hsplit]
    rw [hd]
  · cases t with
    | nil =>
      rw [hd] at h
      have h' : (if u' = 's' ∨ u' = 'm' ∨ u' = 'h' then some (num, u') else none) =
          some (q, u) := h
      by_cases hcase : u' = 's' ∨ u' = 'm' ∨ u' = 'h'
      · rw [if_pos hcase] at h'
        simp only [Option.some.injEq, Prod.mk.injEq] at h'
        refine ⟨h'.1.symm, r.takeWhile isPySpace, some u', hws, ?_, ?_, h'.2.symm⟩
        · rcases hcase with hx | hx | hx <;> subst hx <;> simp
        · show r = List.takeWhile isPySpace r ++ [u']
          conv_lhs => rw [← hsplit]
          rw [hd]
      · rw [if_neg hcase] at h'
        exact absurd h' (by simp)
    | cons c2 t2 =>
      rw [hd] at h
      have h' : (none : Option (ℚ × Char)) = some (q, u) := h
      exact absurd h' (by simp)

/-- `matchDuration` succeeds on every well-formed duration literal
(digits, optional fractional part, optional whitespace, optional unit)
and computes the decimal value and the defaulted unit. -/
lemma matchDuration_build (ip fp ws : List Char) (uo : Option Char)
    (hip : ip ≠ []) (hipd : ∀ c ∈ ip, isDigitCh c = true)
    (hfpd : ∀ c ∈ fp, isDigitCh c = true)
    (hws : ∀ c ∈ ws, isPySpace c = true)
    (hu : uo = none ∨ uo = some 's' ∨ uo = some 'm' ∨ uo = some 'h') :
    matchDuration (numStr ip fp ++ ws ++ uo.toList) =
      some (decNumber ip fp, uo.getD 's') := by
  obtain ⟨tailNotDigit, tailNotDot⟩ := wsUnit_head_facts ws uo hws hu
  cases fp with
  | nil =>
    have hcs : numStr ip [] ++ ws ++ uo.toList = ip ++ (ws ++ uo.toList) := by
      simp [numStr]
    rw [hcs, matchDuration]
    rw [takeWhile_append_all isDigitCh ip (ws ++ uo.toList) hipd tailNotDigit,
      dropWhile_append_all isDigitCh ip (ws ++ uo.toList) hipd tailNotDigit,
      if_neg hip, if_neg tailNotDot]
    exact matchTail_build (decNumber ip []) ws uo hws hu
  | cons d fp' =>
    have hcs : numStr ip (d :: fp') ++ ws ++ uo.toList =
        ip ++ ('.' :: (d :: fp' ++ (ws ++ uo.toList))) := by
      simp [numStr]
    have hdot : ∀ c, ('.' :: (d :: fp' ++ (ws ++ uo.toList))).head? = some c →
        isDigitCh c = false := by
      intro c hc
      simp only [List.head?_cons, Option.some.injEq] at hc
      subst hc
      decide
    rw [hcs, matchDuration]
    rw [takeWhile_append_all isDigitCh ip ('.' :: (d :: fp' ++ (ws ++ uo.toList)))
        hipd hdot,
      dropWhile_append_all isDigitCh ip ('.' :: (d :: fp' ++ (ws ++ uo.toList)))
        hipd hdot,
      if_neg hip]
    simp only [List.head?_cons, List.tail_cons, if_pos rfl]
    rw [takeWhile_append_all isDigitCh (d :: fp') (ws ++ uo.toList) hfpd tailNotDigit,
      dropWhile_append_all isDigitCh (d :: fp') (ws ++ uo.toList) hfpd tailNotDigit,
      if_neg (by simp : ¬ (d :: fp' = []))]
    exact matchTail_build (decNumber ip (d :: fp')) ws uo hws hu

/-- Inversion for `matchDuration`: a successful match decomposes the
input as a duration literal and returns its decimal value and defaulted
unit. -/
lemma matchDuration_sound (cs : List Char) (q : ℚ) (u : Char)
    (h : matchDuration cs = some (q, u)) :
    ∃ ip fp ws uo, ip ≠ [] ∧ (∀ c ∈ ip, isDigitCh c = true) ∧
      (∀ c ∈ fp, isDigitCh c = true) ∧ (∀ c ∈ ws, isPySpace c = true) ∧
      (uo = none ∨ uo = some 's' ∨ uo = some 'm' ∨ uo = some 'h') ∧
      cs = numStr ip fp ++ ws ++ uo.toList ∧
      q = decNumber (cs.takeWhile isDigitCh) fp ∧ ip = cs.takeWhile isDigitCh ∧
      u = uo.getD 's' := by
  rw [matchDuration] at h
  have hsplit : cs.takeWhile isDigitCh ++ cs.dropWhile isDigitCh = cs :=
    List.takeWhile_append_dropWhile isDigitCh cs
  have hipd : ∀ c ∈ cs.takeWhile isDigitCh, isDigitCh c = true :=
    fun c hc => List.mem_takeWhile_imp hc
  by_cases hip : cs.takeWhile isDigitCh = []
  · rw [if_pos hip] at h
    exact absurd h (by simp)
  · rw [if_neg hip] at h
    by_cases hdot : (cs.dropWhile isDigitCh).head? = some '.'
    · rw [if_pos hdot] at h
      obtain ⟨t, ht⟩ : ∃ t, cs.dropWhile isDigitCh = '.' :: t := by
        cases hr : cs.dropWhile isDigitCh with
        | nil => rw [hr] at hdot; exact absurd hdot (by simp)
        | cons c t =>
          rw [hr] at hdot
          simp only [List.head?_cons, Option.some.injEq] at hdot
          exact ⟨t, by rw [hdot]⟩
      rw [ht] at h
      simp only [List.tail_cons] at h
      have htsplit : t.takeWhile isDigitCh ++ t.dropWhile isDigitCh = t :=
        List.takeWhile_append_dropWhile isDigitCh t
      have hfpd : ∀ c ∈ t.takeWhile isDigitCh, isDigitCh c = true :=
        fun c hc => List.mem_takeWhile_imp hc
      by_cases hfp : t.takeWhile isDigitCh = []
      · rw [if_pos hfp] at h
        exact absurd h (by simp)
      · rw [if_neg hfp] at h
        obtain ⟨hq, ws, uo, hws, hu, hr3, hu'⟩ :=
          matchTail_sound _ q u (t.dropWhile isDigitCh) h
        refine ⟨cs.takeWhile isDigitCh, t.takeWhile isDigitCh, ws, uo, hip, hipd,
          hfpd, hws, hu, ?_, hq, rfl, hu'⟩
        conv_lhs => rw [← hsplit]
        rw [ht, numStr, if_neg hfp]
        conv_lhs => rw [show t = t.takeWhile isDigitCh ++ t.dropWhile isDigitCh
          from htsplit.symm, hr3]
        simp
    · rw [if_neg hdot] at h
      obtain ⟨hq, ws, uo, hws, hu, hr1, hu'⟩ :=
        matchTail_sound _ q u (cs.dropWhile isDigitCh) h
      refine ⟨cs.takeWhile isDigitCh, [], ws, uo, hip, hipd, by simp, hws, hu, ?_,
        hq, rfl, hu'⟩
      conv_lhs => rw [← hsplit]
      rw [hr1, numStr, if_pos rfl]
      simp

/-- `matchDuration` fails exactly outside the duration language. -/
lemma matchDuration_none_iff (cs : List Char) :
    matchDuration cs = none ↔ ¬ durationForm cs := by
  constructor
  · intro h hform
    obtain ⟨ip, fp, ws, uo, hip, hipd, hfpd, hws, hu, hcs⟩ := hform
    rw [hcs, matchDuration_build ip fp ws uo hip hipd hfpd hws hu] at h
    exact absurd h (by simp)
  · intro hform
    cases hmd : matchDuration cs with
    | none => rfl
    | some x =>
      obtain ⟨ip, fp, ws, uo, hip, hipd, hfpd, hws, hu, hcs, -⟩ :=
        matchDuration_sound cs x.1 x.2 (by rw [hmd])
      exact absurd ⟨ip, fp, ws, uo, hip, hipd, hfpd, hws, hu, hcs⟩ hform

/-- Two strings differ when the first starts with a digit and the second
does not. -/
lemma mkStr_ne_of_digit_head (c0 : Char) (t : List Char)
    (hd : isDigitCh c0 = true) (c1 : Char) (t1 : List Char)
    (h1 : isDigitCh c1 = false) : (⟨c0 :: t⟩ : String) ≠ ⟨c1 :: t1⟩ := by
  intro heq
  have hdata : c0 :: t = c1 :: t1 := congrArg String.data heq
  injection hdata with hh _
  rw [hh, h1] at hd
  exact Bool.noConfusion hd

/-- A string of two or more characters differs from every one-character
string. -/
lemma mkStr_ne_singleton (c0 : Char) (t : List Char) (ht : t ≠ [])
    (c1 : Char) : (⟨c0 :: t⟩ : String) ≠ ⟨[c1]⟩ := by
  intro heq
  have hdata : c0 :: t = [c1] := congrArg String.data heq
  injection hdata with _ h2
  exact ht h2

/-- A string that starts with a digit is in neither alias set of
`_parse_cache_duration`, provided it is not literally `"0"` or `"1"`. -/
lemma aliases_ne_of_digit_head (c0 : Char) (t : List Char)
    (hd : isDigitCh c0 = true) (h0 : (⟨c0 :: t⟩ : String) ≠ "0")
    (h1 : (⟨c0 :: t⟩ : String) ≠ "1") :
    ¬ ((⟨c0 :: t⟩ : String) = "never" ∨ (⟨c0 :: t⟩ : String) = "0" ∨
       (⟨c0 :: t⟩ : String) = "false" ∨ (⟨c0 :: t⟩ : String) = "no") ∧
    ¬ ((⟨c0 :: t⟩ : String) = "forever" ∨ (⟨c0 :: t⟩ : String) = "inf" ∨
       (⟨c0 :: t⟩ : String) = "true" ∨ (⟨c0 :: t⟩ : String) = "yes" ∨
       (⟨c0 :: t⟩ : String) = "1") := by
  constructor
  · push_neg
    exact ⟨mkStr_ne_of_digit_head c0 t hd 'n' ['e', 'v', 'e', 'r'] (by decide),
      h0,
      mkStr_ne_of_digit_head c0 t hd 'f' ['a', 'l', 's', 'e'] (by decide),
      mkStr_ne_of_digit_head c0 t hd 'n' ['o'] (by decide)⟩
  · push_neg
    exact ⟨mkStr_ne_of_digit_head c0 t hd 'f' ['o', 'r', 'e', 'v', 'e', 'r'] (by decide),
      mkStr_ne_of_digit_head c0 t hd 'i' ['n', 'f'] (by decide),
      mkStr_ne_of_digit_head c0 t hd 't' ['r', 'u', 'e'] (by decide),
      mkStr_ne_of_digit_head c0 t hd 'y' ['e', 's'] (by decide),
      h1⟩

/-- Strip-then-lowercase is the identity on strings whose characters are
neither whitespace nor uppercase letters. -/
lemma normalize_fix (cs : List Char)
    (hsp : ∀ c ∈ cs, isPySpace c = false)
    (hlw : ∀ c ∈ cs, pyLowerChar c = c) :
    pyLower (pyStrip ⟨cs⟩) = ⟨cs⟩ := by
  rw [pyStrip, show (⟨cs⟩ : String).data = cs from rfl, pyStripList_eq_self cs hsp]
  exact pyLower_mk_eq_self cs hlw

/-- Characters of a duration literal are digits, the dot, or characters
of the suffix. -/
lemma mem_numStr_append {c : Char} {ip fp rest : List Char}
    (hc : c ∈ numStr ip fp ++ rest) :
    c ∈ ip ∨ c = '.' ∨ c ∈ fp ∨ c ∈ rest := by
  rw [numStr] at hc
  by_cases hfp : fp = []
  · rw [if_pos hfp] at hc
    simp only [List.append_nil, List.mem_append] at hc
    tauto
  · rw [if_neg hfp] at hc
    simp only [List.mem_append, List.mem_cons] at hc
    tauto

/-- C3: the cache-TTL parser maps each accepted form to its announced
meaning: `"never"` yields the no-caching value `none`, `"forever"` yields
positive infinity, a non-negative decimal number followed by a unit
`s`/`m`/`h` yields that many seconds, minutes (times 60) or hours (times
3600), and the default setting `"5m"` yields 300 seconds. -/
theorem cache_ttl_parser_meaning :
    parse_cache_duration "never" = .ok none ∧
    parse_cache_duration "forever" = .ok (some ⊤) ∧
    (∀ ip fp : List Char, ∀ u : Char, ip ≠ [] →
      (∀ c ∈ ip, isDigitCh c = true) → (∀ c ∈ fp, isDigitCh c = true) →
      (u = 's' ∨ u = 'm' ∨ u = 'h') →
      parse_cache_duration ⟨numStr ip fp ++ [u]⟩ =
        .ok (some ((decNumber ip fp * unitMult u : ℚ) : WithTop ℚ))) ∧
    parse_cache_duration "5m" = .ok (some ((300 : ℚ) : WithTop ℚ)) := by
  refine ⟨by decide, by decide, ?_, ?_⟩
  · intro ip fp u hip hipd hfpd hu
    have hsp : ∀ c ∈ numStr ip fp ++ [u], isPySpace c = false := by
      intro c hc
      rcases mem_numStr_append hc with h | h | h | h
      · exact digit_not_space (hipd c h)
      · subst h; decide
      · exact digit_not_space (hfpd c h)
      · simp only [List.mem_singleton] at h
        subst h
        exact (unit_char_facts hu).2.1
    have hlw : ∀ c ∈ numStr ip fp ++ [u], pyLowerChar c = c := by
      intro c hc
      rcases mem_numStr_append hc with h | h | h | h
      · exact digit_lower_self (hipd c h)
      · subst h; decide
      · exact digit_lower_self (hfpd c h)
      · simp only [List.mem_singleton] at h
        subst h
        rcases hu with h | h | h <;> subst h <;> decide
    rw [parse_cache_duration, normalize_fix _ hsp hlw]
    obtain ⟨c0, ip', rfl⟩ := List.exists_cons_of_ne_nil hip
    have hd : isDigitCh c0 = true := hipd c0 (by simp)
    have hshape : numStr (c0 :: ip') fp ++ [u] =
        c0 :: (ip' ++ (if fp = [] then [] else '.' :: fp) ++ [u]) := by
      simp [numStr]
    have ht : ip' ++ (if fp = [] then [] else '.' :: fp) ++ [u] ≠ [] := by simp
    have halias := aliases_ne_of_digit_head c0
      (ip' ++ (if fp = [] then [] else '.' :: fp) ++ [u]) hd
      (mkStr_ne_singleton c0 _ ht '0') (mkStr_ne_singleton c0 _ ht '1')
    rw [hshape, parse_cache_duration_body, if_neg halias.1, if_neg halias.2]
    have hbuild := matchDuration_build (c0 :: ip') fp [] (some u) hip hipd hfpd
      (by simp) (by rcases hu with h | h | h <;> subst h <;> simp)
    rw [List.append_nil] at hbuild
    have hbuild' : matchDuration (numStr (c0 :: ip') fp ++ [u]) =
        some (decNumber (c0 :: ip') fp, u) := hbuild
    have hdata : (⟨c0 :: (ip' ++ (if fp = [] then [] else '.' :: fp) ++ [u])⟩ :
        String).data = numStr (c0 :: ip') fp ++ [u] := by
      rw [hshape]
    rw [hdata, hbuild']
  · have h : parse_cache_duration "5m" =
        .ok (some ((decNumber ['5'] [] * unitMult 'm' : ℚ) : WithTop ℚ)) := rfl
    rw [h]
    norm_num [decNumber, unitMult, show digitsVal ['5'] = 5 from by decide,
      show digitsVal [] = 0 from rfl, show ('m' = 's') = False from by decide]

/-- Witness for C3: `"7.5m"` parses to 450 seconds, via
`cache_ttl_parser_meaning` at the concrete literal `7.5` with unit `m`. -/
theorem cache_ttl_parser_meaning_witness :
    parse_cache_duration "7.5m" = .ok (some ((450 : ℚ) : WithTop ℚ)) := by
  have h := cache_ttl_parser_meaning.2.2.1 ['7'] ['5'] 'm' (by decide) (by decide)
    (by decide) (by decide)
  have hs : (⟨numStr ['7'] ['5'] ++ ['m']⟩ : String) = "7.5m" := by decide
  rw [hs] at h
  rw [h]
  norm_num [decNumber, unitMult, show digitsVal ['7'] = 7 from by decide,
    show digitsVal ['5'] = 5 from by decide, show ('m' = 's') = False from by decide]

/-- C10: the alias sets take precedence over numeric parsing: `"0"`,
`"false"`, `"no"` give the no-caching value; `"inf"`, `"true"`, `"yes"`,
`"1"` give positive infinity; in particular bare `"1"` and `"0"` are not
read as seconds, while every other bare digit string is read as that many
seconds. -/
theorem cache_ttl_alias_precedence :
    parse_cache_duration "0" = .ok none ∧
    parse_cache_duration "false" = .ok none ∧
    parse_cache_duration "no" = .ok none ∧
    parse_cache_duration "inf" = .ok (some ⊤) ∧
    parse_cache_duration "true" = .ok (some ⊤) ∧
    parse_cache_duration "yes" = .ok (some ⊤) ∧
    parse_cache_duration "1" = .ok (some ⊤) ∧
    (∀ ds : List Char, ds ≠ [] → (∀ c ∈ ds, isDigitCh c = true) →
      (⟨ds⟩ : String) ≠ "0" → (⟨ds⟩ : String) ≠ "1" →
      parse_cache_duration ⟨ds⟩ = .ok (some ((digitsVal ds : ℚ) : WithTop ℚ))) := by
  refine ⟨by decide, by decide, by decide, by decide, by decide, by decide,
    by decide, ?_⟩
  intro ds hne hd h0 h1
  have hsp : ∀ c ∈ ds, isPySpace c = false := fun c hc => digit_not_space (hd c hc)
  have hlw : ∀ c ∈ ds, pyLowerChar c = c := fun c hc => digit_lower_self (hd c hc)
  rw [parse_cache_duration, normalize_fix ds hsp hlw]
  obtain ⟨c0, t, rfl⟩ := List.exists_cons_of_ne_nil hne
  have halias := aliases_ne_of_digit_head c0 t (hd c0 (by simp)) h0 h1
  rw [parse_cache_duration_body, if_neg halias.1, if_neg halias.2]
  have hbuild := matchDuration_build (c0 :: t) [] [] none hne hd (by simp)
    (by simp) (by simp)
  have hbuild' : matchDuration (c0 :: t) = some (decNumber (c0 :: t) [], 's') := by
    simpa [numStr] using hbuild
  rw [show (⟨c0 :: t⟩ : String).data = c0 :: t from rfl, hbuild']
  norm_num [decNumber, unitMult, show digitsVal ([] : List Char) = 0 from rfl]

/-- Witness for C10: `"30"`, a bare number distinct from the aliases,
parses to 30 seconds, via `cache_ttl_alias_precedence`. -/
theorem cache_ttl_alias_precedence_witness :
    parse_cache_duration "30" = .ok (some ((30 : ℚ) : WithTop ℚ)) := by
  have h := cache_ttl_alias_precedence.2.2.2.2.2.2.2 ['3', '0'] (by decide)
    (by decide) (by decide) (by decide)
  have hs : (⟨['3', '0']⟩ : String) = "30" := by decide
  rw [hs] at h
  rw [h, show digitsVal ['3', '0'] = 30 from by decide]
  norm_num

/-- Counterexample to C4 as stated: at the input `"false"`, which is none
of the claimed accepted forms, the parser does not raise — it returns the
no-caching value — so the claimed equivalence fails. -/
theorem cache_ttl_error_iff_counterexample :
    ¬ ((parse_cache_duration "false" = .error ()) ↔ ¬ claimAcceptedOrig "false") := by
  intro hiff
  have hnacc : ¬ claimAcceptedOrig "false" := by
    intro hacc
    rcases hacc with h | h | h
    · exact absurd h (by decide)
    · exact absurd h (by decide)
    · obtain ⟨ip, fp, uo, hip, hipd, -, -, hdata⟩ := h
      obtain ⟨c0, ip', rfl⟩ := List.exists_cons_of_ne_nil hip
      have hshape : numStr (c0 :: ip') fp ++ uo.toList =
          c0 :: (ip' ++ (if fp = [] then [] else '.' :: fp) ++ uo.toList) := by
        simp [numStr]
      rw [hshape] at hdata
      have hf : ('f' :: ['a', 'l', 's', 'e'] : List Char) =
          c0 :: (ip' ++ (if fp = [] then [] else '.' :: fp) ++ uo.toList) := hdata
      injection hf with hh _
      have hdig := hipd c0 (by simp)
      rw [← hh] at hdig
      exact absurd hdig (by decide)
  have herr := hiff.mpr hnacc
  rw [show parse_cache_duration "false" = .ok none from by decide] at herr
  exact absurd herr (by simp)

/-- C4 (amended): `_parse_cache_duration` raises `ValueError` exactly when
the trimmed, lowercased input is in neither alias set and does not match
the duration pattern. -/
theorem cache_ttl_error_iff (value : String) :
    (∃ e, parse_cache_duration value = .error e) ↔ ¬ cacheAccepted value := by
  rw [parse_cache_duration, cacheAccepted]
  set v := pyLower (pyStrip value) with hv
  rw [parse_cache_duration_body]
  by_cases h1 : v = "never" ∨ v = "0" ∨ v = "false" ∨ v = "no"
  · rw [if_pos h1]
    exact iff_of_false (by simp) (not_not_intro (Or.inl h1))
  · rw [if_neg h1]
    by_cases h2 : v = "forever" ∨ v = "inf" ∨ v = "true" ∨ v = "yes" ∨ v = "1"
    · rw [if_pos h2]
      exact iff_of_false (by simp) (not_not_intro (Or.inr (Or.inl h2)))
    · rw [if_neg h2]
      cases hmd : matchDuration v.data with
      | some x =>
        obtain ⟨ip, fp, ws, uo, hip, hipd, hfpd, hws, hu, hcs, -⟩ :=
          matchDuration_sound v.data x.1 x.2 (by rw [hmd])
        exact iff_of_false (by simp) (not_not_intro (Or.inr (Or.inr
          ⟨ip, fp, ws, uo, hip, hipd, hfpd, hws, hu, hcs⟩)))
      | none =>
        refine iff_of_true ⟨(), rfl⟩ ?_
        intro hacc
        rcases hacc with h | h | h
        · exact h1 h
        · exact h2 h
        · exact (matchDuration_none_iff v.data).mp hmd h

/-- Witness for the amended C4 at the concrete rejected input `"bogus"`. -/
theorem cache_ttl_error_iff_witness :
    (∃ e, parse_cache_duration "bogus" = .error e) ↔ ¬ cacheAccepted "bogus" :=
  cache_ttl_error_iff "bogus"

/-- C2: with the heartbeat variable unset, the constructed configuration's
heartbeat interval is `max 1 (lease / 3)`; in particular a lease of 120
seconds gives a 40-second heartbeat. -/
theorem heartbeat_default_from_lease (env : EnvMap) (base_root : FilePathModel)
    (s : String) (L : ℚ) (cfg : FuruConfig)
    (hs : env "FURU_LEASE_SECS" = some s)
    (hL : pyFloat s = some L)
    (hhb : env "FURU_HEARTBEAT_SECS" = none)
    (hcfg : FuruConfig.ofEnv env base_root = some cfg) :
    cfg.heartbeat_interval_sec = max 1 (L / 3) ∧
    (L = 120 → cfg.heartbeat_interval_sec = 40) := by
  rw [FuruConfig.ofEnv] at hcfg
  simp only [getenvD, hs, hhb, Option.getD_some, bind, Option.bind_eq_some] at hcfg
  obtain ⟨p, hp, hcfg⟩ := hcfg
  obtain ⟨w, hw, hcfg⟩ := hcfg
  obtain ⟨st, hst, hcfg⟩ := hcfg
  obtain ⟨l, hl, hcfg⟩ := hcfg
  obtain ⟨hb, hhb2, hcfg⟩ := hcfg
  obtain ⟨rq, hrq, hcfg⟩ := hcfg
  obtain ⟨ttl, httl, hcfg⟩ := hcfg
  rw [hL] at hl
  obtain rfl : L = l := by injection hl
  obtain rfl : max 1 (L / 3) = hb := by injection hhb2
  obtain rfl : cfg = _ := (Option.some.injEq _ _ ▸ hcfg).symm
  refine ⟨rfl, fun h120 => ?_⟩
  subst h120
  show max (1 : ℚ) (120 / 3) = 40
  norm_num

/-- Witness for C2: the environment that sets only the lease (to `"120"`)
yields a heartbeat interval of 40 seconds. -/
theorem heartbeat_default_from_lease_witness :
    ∃ cfg : FuruConfig,
      FuruConfig.ofEnv
        (fun k => if k = "FURU_LEASE_SECS" then some "120" else none) [] =
          some cfg ∧
      cfg.heartbeat_interval_sec = 40 := by
  have e120 : pyFloat "120" = some (120 : ℚ) := by
    rw [show pyFloat "120" = some ((digitsVal ['1', '2', '0'] : ℕ) : ℚ) from rfl,
      show digitsVal ['1', '2', '0'] = 120 from by decide]
    norm_num
  have hval : FuruConfig.ofEnv
      (fun k => if k = "FURU_LEASE_SECS" then some "120" else none) [] = some
      { base_root := [],
        poll_interval := ((digitsVal ['1', '0'] : ℕ) : ℚ),
        wait_log_every_sec := ((digitsVal ['1', '0'] : ℕ) : ℚ),
        stale_timeout := ((digitsVal ['1', '8', '0', '0'] : ℕ) : ℚ),
        lease_duration_sec := (120 : ℚ),
        heartbeat_interval_sec := max 1 ((120 : ℚ) / 3),
        max_requeues := ((digitsVal ['5'] : ℕ) : ℤ),
        ignore_git_diff := false, require_git := true, require_git_remote := true,
        force_recompute := [], cancelled_is_preempted := false,
        cache_metadata_ttl_sec :=
          some ((decNumber ['5'] [] * unitMult 'm' : ℚ) : WithTop ℚ) } := by
    rw [FuruConfig.ofEnv]
    simp only [
      show getenvD (fun k => if k = "FURU_LEASE_SECS" then some "120" else none)
        "FURU_POLL_INTERVAL_SECS" "10" = "10" from rfl,
      show getenvD (fun k => if k = "FURU_LEASE_SECS" then some "120" else none)
        "FURU_WAIT_LOG_EVERY_SECS" "10" = "10" from rfl,
      show getenvD (fun k => if k = "FURU_LEASE_SECS" then some "120" else none)
        "FURU_STALE_AFTER_SECS" "1800" = "1800" from rfl,
      show getenvD (fun k => if k = "FURU_LEASE_SECS" then some "120" else none)
        "FURU_LEASE_SECS" "120" = "120" from rfl,
      show getenvD (fun k => if k = "FURU_LEASE_SECS" then some "120" else none)
        "FURU_PREEMPT_MAX" "5" = "5" from rfl,
      show getenvD (fun k => if k = "FURU_LEASE_SECS" then some "120" else none)
        "FURU_CACHE_METADATA" "5m" = "5m" from rfl,
      show getenvD (fun k => if k = "FURU_LEASE_SECS" then some "120" else none)
        "FURU_FORCE_RECOMPUTE" "" = "" from rfl,
      show ((fun k => if k = "FURU_LEASE_SECS" then some "120" else none : EnvMap)
        "FURU_HEARTBEAT_SECS") = none from rfl,
      e120, bind, Option.some_bind]
    simp only [Option.some.injEq, FuruConfig.mk.injEq,
      show pyFloat "10" = some ((digitsVal ['1', '0'] : ℕ) : ℚ) from rfl,
      show pyFloat "1800" = some ((digitsVal ['1', '8', '0', '0'] : ℕ) : ℚ)
        from rfl,
      show pyInt "5" = some ((digitsVal ['5'] : ℕ) : ℤ) from rfl,
      show (parse_cache_duration "5m").toOption =
        some (some ((decNumber ['5'] [] * unitMult 'm' : ℚ) : WithTop ℚ)) from rfl,
      show envFlag (fun k => if k = "FURU_LEASE_SECS" then some "120" else none)
        "FURU_IGNORE_DIFF" "0" = false from rfl,
      show envFlag (fun k => if k = "FURU_LEASE_SECS" then some "120" else none)
        "FURU_REQUIRE_GIT" "1" = true from rfl,
      show envFlag (fun k => if k = "FURU_LEASE_SECS" then some "120" else none)
        "FURU_REQUIRE_GIT_REMOTE" "1" = true from rfl,
      show envFlag (fun k => if k = "FURU_LEASE_SECS" then some "120" else none)
        "FURU_CANCELLED_IS_PREEMPTED" "false" = false from rfl,
      show ((pySplit ',' "").map pyStrip).filter (fun item => item ≠ "") =
        ([] : List String) from rfl, bind, Option.some_bind]
  refine ⟨_, hval, ?_⟩
  have h := heartbeat_default_from_lease
    (fun k => if k = "FURU_LEASE_SECS" then some "120" else none) [] "120" 120 _
    rfl e120 rfl hval
  exact h.2 rfl

/-- C5: with no configuration environment variables set, every field of
the constructed configuration carries its documented default. -/
theorem config_defaults (base_root : FilePathModel) :
    FuruConfig.ofEnv (fun _ => none) base_root = some
      { base_root := base_root, poll_interval := 10, wait_log_every_sec := 10,
        stale_timeout := 1800, lease_duration_sec := 120,
        heartbeat_interval_sec := 40, max_requeues := 5,
        ignore_git_diff := false, require_git := true,
        require_git_remote := true, force_recompute := [],
        cancelled_is_preempted := false,
        cache_metadata_ttl_sec := some ((300 : ℚ) : WithTop ℚ) } := by
  have e10 : pyFloat "10" = some (10 : ℚ) := by
    rw [show pyFloat "10" = some ((digitsVal ['1', '0'] : ℕ) : ℚ) from rfl,
      show digitsVal ['1', '0'] = 10 from by decide]
    norm_num
  have e1800 : pyFloat "1800" = some (1800 : ℚ) := by
    rw [show pyFloat "1800" = some ((digitsVal ['1', '8', '0', '0'] : ℕ) : ℚ)
      from rfl, show digitsVal ['1', '8', '0', '0'] = 1800 from by decide]
    norm_num
  have e120 : pyFloat "120" = some (120 : ℚ) := by
    rw [show pyFloat "120" = some ((digitsVal ['1', '2', '0'] : ℕ) : ℚ) from rfl,
      show digitsVal ['1', '2', '0'] = 120 from by decide]
    norm_num
  have e5 : pyInt "5" = some (5 : ℤ) := by
    rw [show pyInt "5" = some ((digitsVal ['5'] : ℕ) : ℤ) from rfl,
      show digitsVal ['5'] = 5 from by decide]
    norm_num
  have ettl : (parse_cache_duration "5m").toOption =
      some (some ((300 : ℚ) : WithTop ℚ)) := by
    rw [show parse_cache_duration "5m" =
      .ok (some ((decNumber ['5'] [] * unitMult 'm' : ℚ) : WithTop ℚ)) from rfl,
      show (decNumber ['5'] [] * unitMult 'm' : ℚ) = 300 from by
        norm_num [decNumber, unitMult, show digitsVal ['5'] = 5 from by decide,
          show digitsVal ([] : List Char) = 0 from rfl,
          show ('m' = 's') = False from by decide]]
    rfl
  rw [FuruConfig.ofEnv]
  simp only [
    show getenvD (fun _ => none) "FURU_POLL_INTERVAL_SECS" "10" = "10" from rfl,
    show getenvD (fun _ => none) "FURU_WAIT_LOG_EVERY_SECS" "10" = "10" from rfl,
    show getenvD (fun _ => none) "FURU_STALE_AFTER_SECS" "1800" = "1800" from rfl,
    show getenvD (fun _ => none) "FURU_LEASE_SECS" "120" = "120" from rfl,
    show getenvD (fun _ => none) "FURU_PREEMPT_MAX" "5" = "5" from rfl,
    show getenvD (fun _ => none) "FURU_CACHE_METADATA" "5m" = "5m" from rfl,
    show getenvD (fun _ => none) "FURU_FORCE_RECOMPUTE" "" = "" from rfl,
    show ((fun _ => none : EnvMap) "FURU_HEARTBEAT_SECS") = none from rfl,
    e10, e1800, e120, e5, ettl, bind, Option.some_bind]
  simp only [Option.some.injEq, FuruConfig.mk.injEq,
    show envFlag (fun _ => none) "FURU_IGNORE_DIFF" "0" = false from rfl,
    show envFlag (fun _ => none) "FURU_REQUIRE_GIT" "1" = true from rfl,
    show envFlag (fun _ => none) "FURU_REQUIRE_GIT_REMOTE" "1" = true from rfl,
    show envFlag (fun _ => none) "FURU_CANCELLED_IS_PREEMPTED" "false" = false
      from rfl,
    show ((pySplit ',' "").map pyStrip).filter (fun item => item ≠ "") =
      ([] : List String) from rfl]
  norm_num

/-- Witness for C5 at the concrete base root `[]`. -/
theorem config_defaults_witness :
    FuruConfig.ofEnv (fun _ => none) [] = some
      { base_root := [], poll_interval := 10, wait_log_every_sec := 10,
        stale_timeout := 1800, lease_duration_sec := 120,
        heartbeat_interval_sec := 40, max_requeues := 5,
        ignore_git_diff := false, require_git := true,
        require_git_remote := true, force_recompute := [],
        cancelled_is_preempted := false,
        cache_metadata_ttl_sec := some ((300 : ℚ) : WithTop ℚ) } :=
  config_defaults []

/-- C6: version-controlled artifacts live under the `git/` subtree and
non-version-controlled artifacts under the `data/` subtree of the same
base root. -/
theorem get_root_subtrees (c : FuruConfig) :
    c.get_root true = c.base_root ++ ["git"] ∧
    c.get_root false = c.base_root ++ ["data"] :=
  ⟨rfl, rfl⟩

/-- Witness for C6 at a concrete configuration. -/
theorem get_root_subtrees_witness :
    FuruConfig.get_root
      { base_root := ["root"], poll_interval := 10, wait_log_every_sec := 10,
        stale_timeout := 1800, lease_duration_sec := 120,
        heartbeat_interval_sec := 40, max_requeues := 5,
        ignore_git_diff := false, require_git := true,
        require_git_remote := true, force_recompute := [],
        cancelled_is_preempted := false, cache_metadata_ttl_sec := none }
      true = ["root", "git"] :=
  (get_root_subtrees _).1

/-- Any list is an infix of a surrounding append. -/
lemma infix_mid {α : Type} (a b c : List α) : b <:+: a ++ b ++ c := ⟨a, c, rfl⟩

/-- C7: a `FuruComputeError` rendered as a string contains the message,
the rendering of the original error, its formatted traceback, and the
state-file path; a `FuruMigrationRequired` with a state path contains
that path. -/
theorem error_rendering_contains (message state_path : String) (exc : PyExc)
    (mig_message mig_path : String) :
    (message.data <:+:
      (FuruComputeError.render ⟨message, state_path, some exc⟩).data) ∧
    (exc.rendered.data <:+:
      (FuruComputeError.render ⟨message, state_path, some exc⟩).data) ∧
    (exc.tb.data <:+:
      (FuruComputeError.render ⟨message, state_path, some exc⟩).data) ∧
    (state_path.data <:+:
      (FuruComputeError.render ⟨message, state_path, some exc⟩).data) ∧
    (mig_path.data <:+:
      (FuruMigrationRequired.render ⟨mig_message, some mig_path⟩).data) := by
  refine ⟨?_, ?_, ?_, ?_, ?_⟩
  · exact ⟨[], ("\n\nOriginal error: " ++ exc.rendered ++ "\n\nTraceback:\n" ++
      exc.tb ++ "\n\nState file: " ++ state_path).data,
      by simp [FuruComputeError.render, String.data_append]⟩
  · exact ⟨(message ++ "\n\nOriginal error: ").data,
      ("\n\nTraceback:\n" ++ exc.tb ++ "\n\nState file: " ++ state_path).data,
      by simp [FuruComputeError.render, String.data_append]⟩
  · exact ⟨(message ++ "\n\nOriginal error: " ++ exc.rendered ++
      "\n\nTraceback:\n").data,
      ("\n\nState file: " ++ state_path).data,
      by simp [FuruComputeError.render, String.data_append]⟩
  · exact ⟨(message ++ "\n\nOriginal error: " ++ exc.rendered ++
      "\n\nTraceback:\n" ++ exc.tb ++ "\n\nState file: ").data, [],
      by simp [FuruComputeError.render, String.data_append]⟩
  · exact ⟨(mig_message ++ "\n\nState file: ").data, [],
      by simp [FuruMigrationRequired.render, String.data_append]⟩

/-- Witness for C7 at concrete strings. -/
theorem error_rendering_contains_witness :
    ("boom".data <:+:
      (FuruComputeError.render ⟨"boom", "/tmp/state.json",
        some ⟨"ValueError: x", "Traceback line"⟩⟩).data) ∧
    ("ValueError: x".data <:+:
      (FuruComputeError.render ⟨"boom", "/tmp/state.json",
        some ⟨"ValueError: x", "Traceback line"⟩⟩).data) ∧
    ("Traceback line".data <:+:
      (FuruComputeError.render ⟨"boom", "/tmp/state.json",
        some ⟨"ValueError: x", "Traceback line"⟩⟩).data) ∧
    ("/tmp/state.json".data <:+:
      (FuruComputeError.render ⟨"boom", "/tmp/state.json",
        some ⟨"ValueError: x", "Traceback line"⟩⟩).data) ∧
    ("/old/state.json".data <:+:
      (FuruMigrationRequired.render ⟨"migrate me", some "/old/state.json"⟩).data) :=
  error_rendering_contains "boom" "/tmp/state.json"
    ⟨"ValueError: x", "Traceback line"⟩ "migrate me" "/old/state.json"

lemma FSModel.isDir_iff (fs : FSModel) (p : FilePathModel) :
    fs.isDir p = true ↔ ∃ e ∈ fs.entries, e.path = p ∧ e.isDir = true := by
  simp [FSModel.isDir, List.any_eq_true, Bool.and_eq_true, beq_iff_eq]

lemma FSModel.isFile_iff (fs : FSModel) (p : FilePathModel) :
    fs.isFile p = true ↔ ∃ e ∈ fs.entries, e.path = p ∧ e.isDir = false := by
  simp [FSModel.isFile, List.any_eq_true, Bool.and_eq_true, beq_iff_eq]

lemma mem_rglobName {fs : FSModel} {root : FilePathModel} {pat : String}
    {p : FilePathModel} :
    p ∈ rglobName fs root pat ↔
      ∃ e ∈ fs.entries, e.path = p ∧ root <+: p ∧ root.length < p.length ∧
        p.getLastD "" = pat := by
  simp only [rglobName, List.mem_map, List.mem_filter, Bool.and_eq_true,
    beq_iff_eq, decide_eq_true_eq, List.isPrefixOf_iff_prefix]
  constructor
  · rintro ⟨e, ⟨he, ⟨⟨hpre, hlen⟩, hlast⟩⟩, rfl⟩
    exact ⟨e, he, rfl, hpre, hlen, hlast⟩
  · rintro ⟨e, he, rfl, hpre, hlen, hlast⟩
    exact ⟨e, ⟨he, ⟨⟨hpre, hlen⟩, hlast⟩⟩, rfl⟩

/-- A nonempty list whose defaulted last element is `x` is its own
`dropLast` followed by `[x]`. -/
lemma eq_dropLast_concat_of_getLastD {p : FilePathModel} {x : String}
    (hne : p ≠ []) (hlast : p.getLastD "" = x) : p = p.dropLast ++ [x] := by
  conv_lhs => rw [← List.dropLast_append_getLast hne]
  rw [List.getLastD_eq_getLast?, List.getLast?_eq_getLast p hne,
    Option.getD_some] at hlast
  rw [hlast]

/-- A prefix of `d ++ [x]` no longer than `d` is a prefix of `d`. -/
lemma prefix_of_prefix_concat {root d : FilePathModel} {x : String}
    (h : root <+: d ++ [x]) (hlen : root.length ≤ d.length) : root <+: d := by
  obtain ⟨t, ht⟩ := h
  refine ⟨t.take (d.length - root.length), ?_⟩
  calc root ++ t.take (d.length - root.length)
      = root.take d.length ++ t.take (d.length - root.length) := by
        rw [List.take_of_length_le hlen]
    _ = (root ++ t).take d.length := List.take_append_eq_append_take.symm
    _ = (d ++ [x]).take d.length := by rw [ht]
    _ = d := List.take_left d [x]

lemma mem_find_experiment_dirs {fs : FSModel} {root d : FilePathModel} :
    d ∈ find_experiment_dirs fs root ↔
      (root <+: d ∧ fs.isDir (d ++ [StateManager.INTERNAL_DIR]) = true ∧
        fs.isFile (d ++ [StateManager.INTERNAL_DIR,
          StateManager.STATE_FILE]) = true) := by
  constructor
  · intro hd
    obtain ⟨p, hp, rfl⟩ := List.mem_map.mp hd
    obtain ⟨hpr, hq⟩ := List.mem_filter.mp hp
    obtain ⟨e, he, rfl, hpre, hlen, hlast⟩ := mem_rglobName.mp hpr
    have hne : e.path ≠ [] := by
      intro h
      rw [h] at hlen
      simp at hlen
    have hsplit : e.path = e.path.dropLast ++ [StateManager.INTERNAL_DIR] :=
      eq_dropLast_concat_of_getLastD hne hlast
    simp only [Bool.and_eq_true] at hq
    obtain ⟨hdir, hfile⟩ := hq
    have hlen2 : root.length ≤ e.path.dropLast.length := by
      have := congrArg List.length hsplit
      simp only [List.length_append, List.length_singleton] at this
      omega
    refine ⟨prefix_of_prefix_concat (hsplit ▸ hpre) hlen2, ?_, ?_⟩
    · rw [← hsplit]
      exact hdir
    · have : e.path.dropLast ++ [StateManager.INTERNAL_DIR,
          StateManager.STATE_FILE] =
          e.path ++ [StateManager.STATE_FILE] := by
        conv_rhs => rw [hsplit]
        simp
      rw [this]
      exact hfile
  · rintro ⟨hpre, hdir, hfile⟩
    obtain ⟨e, he, hep, -⟩ := (fs.isDir_iff _).mp hdir
    refine List.mem_map.mpr ⟨e.path, List.mem_filter.mpr ⟨?_, ?_⟩, ?_⟩
    · refine mem_rglobName.mpr ⟨e, he, rfl, ?_, ?_, ?_⟩
      · rw [hep]
        exact hpre.trans (List.prefix_append d _)
      · rw [hep]
        simp only [List.length_append, List.length_singleton]
        have := hpre.length_le
        omega
      · rw [hep]
        exact List.getLastD_concat _ _ _
    · rw [hep]
      simp only [Bool.and_eq_true]
      refine ⟨hdir, ?_⟩
      have : (d ++ [StateManager.INTERNAL_DIR]) ++ [StateManager.STATE_FILE] =
          d ++ [StateManager.INTERNAL_DIR, StateManager.STATE_FILE] := by simp
      rw [this]
      exact hfile
    · rw [hep]
      exact List.dropLast_concat

/-- On a well-formed filesystem, the discovered experiment directories are
pairwise distinct. -/
lemma find_experiment_dirs_nodup {fs : FSModel} {root : FilePathModel}
    (hwf : fs.Wellformed) : (find_experiment_dirs fs root).Nodup := by
  rw [find_experiment_dirs]
  apply List.Nodup.map_on
  · intro x hx y hy hxy
    have hx' := mem_rglobName.mp (List.mem_filter.mp hx).1
    have hy' := mem_rglobName.mp (List.mem_filter.mp hy).1
    obtain ⟨ex, -, hex, -, hxlen, hxlast⟩ := hx'
    obtain ⟨ey, -, hey, -, hylen, hylast⟩ := hy'
    have hxne : x ≠ [] := by
      intro h
      rw [h] at hxlen
      simp at hxlen
    have hyne : y ≠ [] := by
      intro h
      rw [h] at hylen
      simp at hylen
    rw [eq_dropLast_concat_of_getLastD hxne hxlast,
      eq_dropLast_concat_of_getLastD hyne hylast, hxy]
  · apply List.Nodup.filter
    rw [rglobName]
    exact ((List.filter_sublist _).map FSEntry.path).nodup hwf

/-- The discovered experiment directories under `root` are exactly the
claim-side experiment directories. -/
lemma find_experiment_dirs_perm_spec {fs : FSModel} {root : FilePathModel}
    (hwf : fs.Wellformed) :
    (find_experiment_dirs fs root).Perm (experimentDirsSpec fs root) := by
  refine (List.perm_ext_iff_of_nodup (find_experiment_dirs_nodup hwf) ?_).mpr ?_
  · exact List.Nodup.filter _ (List.nodup_dedup _)
  · intro d
    rw [mem_find_experiment_dirs, experimentDirsSpec, List.mem_filter,
      isExperimentDirUnder]
    simp only [List.mem_dedup, List.mem_map, Bool.and_eq_true,
      List.isPrefixOf_iff_prefix]
    constructor
    · rintro ⟨hpre, hdir, hfile⟩
      refine ⟨?_, ⟨hpre, hdir⟩, hfile⟩
      obtain ⟨e, he, hep, -⟩ := (fs.isDir_iff _).mp hdir
      exact ⟨e, he, by rw [hep]; exact List.dropLast_concat⟩
    · rintro ⟨-, ⟨hpre, hdir⟩, hfile⟩
      exact ⟨hpre, hdir, hfile⟩

/-- A `filterMap` whose function always succeeds is a `map`. -/
lemma filterMap_eq_map_of_forall {α β : Type} (l : List α) (g : α → Option β)
    (f : α → β) (h : ∀ a ∈ l, g a = some (f a)) : l.filterMap g = l.map f := by
  induction l with
  | nil => rfl
  | cons a t ih =>
    rw [List.filterMap_cons, h a (by simp), List.map_cons,
      ih (fun b hb => h b (by simp [hb]))]

/-- `flatMap` respects pointwise permutation. -/
lemma flatMap_perm_of_forall {α β : Type} (l : List α) (f g : α → List β)
    (h : ∀ a ∈ l, (f a).Perm (g a)) : (l.flatMap f).Perm (l.flatMap g) := by
  induction l with
  | nil => simp
  | cons a t ih =>
    simp only [List.flatMap_cons]
    exact (h a (by simp)).append (ih fun b hb => h b (by simp [hb]))

/-- With no filters, the per-directory body of `scan_experiments` always
produces the summary of the directory's state record; composing with the
field projection leaves exactly the state fields. -/
lemma scan_body_fields {fs : FSModel} {root d : FilePathModel}
    (hpre : root <+: d) :
    Option.map summaryStateFields
      ((parse_namespace_from_path d root).bind (fun nh =>
        scan_filters none none none
          (state_to_summary (fs.stateOf d) nh.1 nh.2))) =
      some (stateFields (fs.stateOf d)) := by
  rw [parse_namespace_from_path, relative_to,
    if_pos (List.isPrefixOf_iff_prefix.mpr hpre)]
  rfl

/-- C1: with no filters, `scan_experiments` returns exactly one summary
per experiment directory (a directory containing the internal state
subdirectory with its state file) under each existing storage root, and
each summary's `result_status`, `attempt_status`, `attempt_number`,
`updated_at` and `started_at` are taken from that directory's state
record: as multisets, the projected scan output equals the state fields
of the claim-side experiment-directory enumeration. -/
theorem scan_experiments_complete (fs : FSModel) (cfg : FuruConfig)
    (hwf : fs.Wellformed) :
    ((scan_experiments fs cfg none none none).map summaryStateFields :
      Multiset (String × Option String × Option ℤ × Option String ×
        Option String)) =
    (((iter_roots fs cfg).flatMap (fun root =>
      (experimentDirsSpec fs root).map (fun d => stateFields (fs.stateOf d)))) :
      Multiset _) := by
  rw [scan_experiments, scan_sort]
  refine Multiset.coe_eq_coe.mpr ?_
  refine ((List.perm_insertionSort _ _).map summaryStateFields).trans ?_
  rw [List.map_flatMap]
  refine flatMap_perm_of_forall _ _ _ ?_
  intro root hroot
  rw [List.map_filterMap]
  rw [filterMap_eq_map_of_forall _ _ (fun d => stateFields (fs.stateOf d))
    (fun d hd => scan_body_fields (mem_find_experiment_dirs.mp hd).1)]
  exact (find_experiment_dirs_perm_spec hwf).map _

lemma splitOnChar_ne_nil (sep : Char) (l : List Char) : splitOnChar sep l ≠ [] := by
  cases l with
  | nil => simp [splitOnChar]
  | cons c rest =>
    rw [splitOnChar]
    by_cases h : c = sep
    · rw [if_pos h]
      simp
    · rw [if_neg h]
      cases hs : splitOnChar sep rest with
      | nil => simp
      | cons a t => simp

/-- Splitting a separator-free block followed by anything prepends the
block to the first part of the rest. -/
lemma splitOnChar_sepfree_append (sep : Char) (p r : List Char)
    (hp : ∀ c ∈ p, c ≠ sep) :
    splitOnChar sep (p ++ r) =
      (p ++ (splitOnChar sep r).headD []) :: (splitOnChar sep r).tail := by
  induction p with
  | nil =>
    simp only [List.nil_append]
    cases hs : splitOnChar sep r with
    | nil => exact absurd hs (splitOnChar_ne_nil sep r)
    | cons a t => simp
  | cons c p ih =>
    have hc : c ≠ sep := hp c (by simp)
    rw [List.cons_append, splitOnChar, if_neg hc,
      ih (fun b hb => hp b (by simp [hb]))]
    simp

/-- Splitting inverts joining, for a nonempty list of separator-free
parts. -/
lemma splitOnChar_joinChar (sep : Char) (parts : List (List Char))
    (hne : parts ≠ []) (hfree : ∀ p ∈ parts, ∀ c ∈ p, c ≠ sep) :
    splitOnChar sep (joinChar sep parts) = parts := by
  induction parts with
  | nil => exact absurd rfl hne
  | cons p rest ih =>
    cases rest with
    | nil =>
      have h := splitOnChar_sepfree_append sep p [] (hfree p (by simp))
      simpa [joinChar, splitOnChar] using h
    | cons q rest2 =>
      rw [joinChar,
        splitOnChar_sepfree_append sep p (sep :: joinChar sep (q :: rest2))
          (hfree p (by simp)),
        show splitOnChar sep (sep :: joinChar sep (q :: rest2)) =
          [] :: splitOnChar sep (joinChar sep (q :: rest2)) from by
            rw [splitOnChar, if_pos rfl],
        ih (by simp) (fun b hb => hfree b (by simp [hb]))]
      simp

/-- String-level split/join roundtrip for separator-free parts. -/
lemma pySplit_pyJoin (sep : Char) (parts : List String) (hne : parts ≠ [])
    (hfree : ∀ p ∈ parts, ∀ c ∈ p.data, c ≠ sep) :
    pySplit sep (pyJoin sep parts) = parts := by
  rw [pySplit, pyJoin,
    show (⟨joinChar sep (parts.map String.data)⟩ : String).data =
      joinChar sep (parts.map String.data) from rfl,
    splitOnChar_joinChar sep _ (by simpa using hne) ?_, List.map_map]
  · calc parts.map (String.mk ∘ String.data) = parts.map id :=
        List.map_congr_left (fun s _ => rfl)
    _ = parts := List.map_id parts
  · intro p hp
    obtain ⟨s, hs, rfl⟩ := List.mem_map.mp hp
    exact hfree s hs

/-- C9: for an experiment directory `root/p1/…/pk/hash` with `k ≥ 1` and
no dot in any component, `_parse_namespace_from_path` returns the
dot-joined namespace and the hash, and `get_experiment_detail`'s
reconstruction `root / Path(*namespace.split(".")) / hash` yields back
the same directory. -/
theorem namespace_path_roundtrip (root : FilePathModel) (parts : List String)
    (hsh : String) (hk : parts ≠ [])
    (hdots : ∀ p ∈ parts ++ [hsh], ∀ c ∈ p.data, c ≠ '.') :
    parse_namespace_from_path (root ++ (parts ++ [hsh])) root =
      some (pyJoin '.' parts, hsh) ∧
    detail_experiment_dir root (pyJoin '.' parts) hsh =
      root ++ (parts ++ [hsh]) := by
  have hrel : relative_to (root ++ (parts ++ [hsh])) root =
      some (parts ++ [hsh]) := by
    rw [relative_to,
      if_pos (List.isPrefixOf_iff_prefix.mpr (List.prefix_append root _)),
      List.drop_left]
  constructor
  · rw [parse_namespace_from_path, hrel, Option.map_some']
    rw [if_neg ?hlen]
    · rw [List.dropLast_concat, List.getLastD_concat]
    case hlen =>
      simp only [List.length_append, List.length_singleton, not_lt]
      have : 0 < parts.length := List.length_pos.mpr hk
      omega
  · rw [detail_experiment_dir,
      pySplit_pyJoin '.' parts hk (fun p hp => hdots p (by simp [hp]))]
    simp [List.append_assoc]

/-- Witness for C9 at the directory `r/a/b/c`. -/
theorem namespace_path_roundtrip_witness :
    parse_namespace_from_path (["r"] ++ (["a", "b"] ++ ["c"])) ["r"] =
      some (pyJoin '.' ["a", "b"], "c") ∧
    detail_experiment_dir ["r"] (pyJoin '.' ["a", "b"]) "c" =
      ["r"] ++ (["a", "b"] ++ ["c"]) :=
  namespace_path_roundtrip ["r"] ["a", "b"] "c" (by decide) (by decide)

/-- C8, evaluated at the failing input: with one dated summary and one
whose `updated_at` is `None`, the scan places the `None` summary first,
not after the dated one.  `list.sort(key=lambda e: (e.updated_at is None,
e.updated_at or ""), reverse=True)` sorts the key descending and
`True > False`, so `None` keys come first — contradicting the code's own
comment "with None values at the end" (scanner.py line 142) and the
claim. -/
theorem scan_sort_places_missing_updated_at_first :
    (scan_experiments fsSortConcrete cfgConcrete none none none).map
      ExperimentSummary.updated_at =
      [none, some "2024-01-01T00:00:00+00:00"] := by decide

/-- Witness for C1: on the concrete filesystem, the well-formedness
hypothesis holds by evaluation and the theorem applies. -/
theorem scan_experiments_complete_witness :
    fsSortConcrete.Wellformed ∧
    ((scan_experiments fsSortConcrete cfgConcrete none none none).map
        summaryStateFields :
      Multiset (String × Option String × Option ℤ × Option String ×
        Option String)) =
    (((iter_roots fsSortConcrete cfgConcrete).flatMap (fun root =>
      (experimentDirsSpec fsSortConcrete root).map
        (fun d => stateFields (fsSortConcrete.stateOf d)))) : Multiset _) :=
  ⟨by unfold FSModel.Wellformed; decide,
    scan_experiments_complete fsSortConcrete cfgConcrete
      (by unfold FSModel.Wellformed; decide)⟩
